import Mathlib

/-!
Shallow embedding of the rewm tiling window manager (src/src/main.rs).

The program is a single-file X11 window manager: a `LayoutMode` enum
(Horizontal / Vertical), a `WindowManager` struct holding the current
layout and a `Vec<u32>` of tracked window handles, a pure layout routine
`arrange_windows`, a `toggle_layout` operation, and an event loop `run`
that reacts to MapRequest, KeyPress and DestroyNotify events.

Screen width/height are read once from the server; here they are explicit
parameters.  `configure_window` calls are modelled as emitted
`ConfigureCmd` values, `map_window` as a `Cmd.MapWindow`; the event loop
becomes a step function `step : WMState → XEvent → WMState × List Cmd × Bool`
(the Bool is the quit flag of the `break` branch) folded by `processEvents`.
-/

/-- `enum LayoutMode { Horizontal, Vertical }`. -/
inductive LayoutMode
  | Horizontal
  | Vertical
  deriving DecidableEq, Repr

/-- One `configure_window` call: target handle and the x/y/width/height
fields of the `ConfigureWindowAux`.  All values the program ever passes are
non-negative, so `Nat` is faithful (the Rust `as i32` casts act on values
below 2^16). -/
structure ConfigureCmd where
  window : Nat
  x : Nat
  y : Nat
  width : Nat
  height : Nat
  deriving DecidableEq, Repr

/-- The mutable state of `WindowManager`: current layout mode and the
tracked window list (`windows: Vec<u32>`), oldest first. -/
structure WMState where
  layout : LayoutMode
  windows : List Nat
  deriving DecidableEq, Repr

/-- `WindowManager::new`: layout starts `Horizontal`, window list empty. -/
def initState : WMState := { layout := LayoutMode.Horizontal, windows := [] }

/-- `arrange_windows`: if at least two windows are tracked, emit two
`configure_window` commands for `windows[0]` and `windows[1]`.
Horizontal: both get width `width / 2` (integer division), full height,
the second at x = `width / 2`.  Vertical: both get height `height / 2`,
full width, the second at y = `height / 2`.  Fewer than two windows: no
commands. -/
def arrange_windows (width height : Nat) (layout : LayoutMode)
    (windows : List Nat) : List ConfigureCmd :=
  if windows.length ≥ 2 then
    match layout with
    | LayoutMode.Horizontal =>
        [{ window := windows.getD 0 0, x := 0, y := 0,
           width := width / 2, height := height },
         { window := windows.getD 1 0, x := width / 2, y := 0,
           width := width / 2, height := height }]
    | LayoutMode.Vertical =>
        [{ window := windows.getD 0 0, x := 0, y := 0,
           width := width, height := height / 2 },
         { window := windows.getD 1 0, x := 0, y := height / 2,
           width := width, height := height / 2 }]
  else
    []

/-- `toggle_layout`: flip the mode and re-run `arrange_windows`; the
emitted configure commands are returned alongside the new state. -/
def toggle_layout (width height : Nat) (s : WMState) :
    WMState × List ConfigureCmd :=
  let l := match s.layout with
    | LayoutMode.Horizontal => LayoutMode.Vertical
    | LayoutMode.Vertical => LayoutMode.Horizontal
  let s := { s with layout := l }
  (s, arrange_windows width height s.layout s.windows)

/-- The events the `run` loop distinguishes; every other event is the
wildcard arm, modelled by `Other`. -/
inductive XEvent
  | MapRequest (window : Nat)
  | KeyPress (st : Nat) (detail : Nat)
  | DestroyNotify (window : Nat)
  | Other
  deriving DecidableEq, Repr

/-- Commands the loop issues back to the X server. -/
inductive Cmd
  | MapWindow (window : Nat)
  | ConfigureWindow (c : ConfigureCmd)
  deriving DecidableEq, Repr

/-- `ModMask::M4.bits()` = 64. -/
def modM4 : Nat := 64

/-- `(ModMask::CONTROL | ModMask::M4).bits()` = 4 ∣ 64 = 68. -/
def modControlM4 : Nat := 68

/-- `Iterator::position`: index of the first element satisfying the
predicate, `none` if there is none. -/
def position (p : Nat → Bool) : List Nat → Option Nat
  | [] => none
  | x :: xs => if p x then some 0 else (position p xs).map (· + 1)

/-- One iteration of the `run` loop body on an event: returns the new
state, the commands issued during the iteration in order, and whether the
loop `break`s (the quit chord). -/
def step (width height : Nat) (s : WMState) (e : XEvent) :
    WMState × List Cmd × Bool :=
  match e with
  | XEvent.MapRequest w =>
      let ws := s.windows ++ [w]
      let ws := if ws.length > 2 then ws.tail else ws
      let s := { s with windows := ws }
      (s, Cmd.MapWindow w ::
            (arrange_windows width height s.layout s.windows).map
              Cmd.ConfigureWindow,
        false)
  | XEvent.KeyPress st keycode =>
      if st = modM4 ∧ keycode = 65 then
        let r := toggle_layout width height s
        (r.1, r.2.map Cmd.ConfigureWindow, false)
      else if st = modControlM4 ∧ keycode = 24 then
        (s, [], true)
      else
        (s, [], false)
  | XEvent.DestroyNotify w =>
      match position (fun x => x == w) s.windows with
      | some pos => ({ s with windows := s.windows.eraseIdx pos }, [], false)
      | none => (s, [], false)
  | XEvent.Other => (s, [], false)

/-- The `run` loop on a finite event sequence from a given state: final
state and the concatenated command trace; stops early on the quit chord. -/
def processEvents (width height : Nat) (s : WMState) :
    List XEvent → WMState × List Cmd
  | [] => (s, [])
  | e :: rest =>
      match step width height s e with
      | (s1, cmds, quit) =>
          if quit then (s1, cmds)
          else
            match processEvents width height s1 rest with
            | (s2, cmds2) => (s2, cmds ++ cmds2)

/-! ## Helper lemmas -/

/-- The layout routine on exactly two tracked windows, in closed form:
both halves get the floored half-dimension. -/
theorem arrange_windows_two (W H w0 w1 : Nat) :
    arrange_windows W H LayoutMode.Horizontal [w0, w1] =
      [{ window := w0, x := 0, y := 0, width := W / 2, height := H },
       { window := w1, x := W / 2, y := 0, width := W / 2, height := H }] ∧
    arrange_windows W H LayoutMode.Vertical [w0, w1] =
      [{ window := w0, x := 0, y := 0, width := W, height := H / 2 },
       { window := w1, x := 0, y := H / 2, width := W, height := H / 2 }] := by
  constructor <;> simp [arrange_windows]

/-- Each step keeps the tracked list at most 2 long, given it was. -/
theorem step_windows_length_le (W H : Nat) (s : WMState) (e : XEvent)
    (h : s.windows.length ≤ 2) :
    (step W H s e).1.windows.length ≤ 2 := by
  cases e with
  | MapRequest w =>
      simp only [step]
      split <;> simp_all
  | KeyPress st keycode =>
      simp only [step]
      split
      · simpa [toggle_layout] using h
      · split <;> simpa using h
  | DestroyNotify w =>
      simp only [step]
      split
      · simp only [List.length_eraseIdx]
        split <;> omega
      · simpa using h
  | Other => simpa [step] using h

/-- The loop keeps the tracked list at most 2 long from any such state. -/
theorem processEvents_windows_length_le (W H : Nat) (s : WMState)
    (es : List XEvent) (h : s.windows.length ≤ 2) :
    (processEvents W H s es).1.windows.length ≤ 2 := by
  induction es generalizing s with
  | nil => simpa [processEvents] using h
  | cons e rest ih =>
      simp only [processEvents]
      have hstep := step_windows_length_le W H s e h
      rcases hr : step W H s e with ⟨s1, cmds, quit⟩
      rw [hr] at hstep
      cases quit with
      | true => simpa using hstep
      | false =>
          have := ih s1 hstep
          rcases hp : processEvents W H s1 rest with ⟨s2, cmds2⟩
          rw [hp] at this
          simpa using this

/-- `position (· == w)` returns `none` exactly when `w` is absent. -/
theorem position_none_iff (w : Nat) (l : List Nat) :
    position (fun x => x == w) l = none ↔ w ∉ l := by
  induction l with
  | nil => simp [position]
  | cons a l ih =>
      by_cases h : a = w
      · subst h
        simp [position]
      · simp [position, h, ih]
        exact fun _ hwa => h hwa.symm

/-- Erasing at the index `position (· == w)` found is erasing the first
occurrence of `w`, i.e. `List.erase`. -/
theorem position_some_eraseIdx (w : Nat) (l : List Nat) (i : Nat)
    (h : position (fun x => x == w) l = some i) :
    l.eraseIdx i = l.erase w := by
  induction l generalizing i with
  | nil => simp [position] at h
  | cons a l ih =>
      by_cases ha : a = w
      · subst ha
        simp [position] at h
        subst h
        simp
      · simp [position, ha] at h
        obtain ⟨j, hj, rfl⟩ := h
        simp [List.eraseIdx, List.erase_cons, ha, ih j hj]

/-! ## Claims -/

/-- C1, counterexample: at odd screen width 3 in Horizontal mode on two
windows, the code gives the second window width `3 / 2 = 1`, not
`3 - 3 / 2 = 2` as claimed; the two widths sum to 2, not 3. -/
theorem c1_counterexample :
    ¬ arrange_windows 3 10 LayoutMode.Horizontal [1, 2] =
        [{ window := 1, x := 0, y := 0, width := 3 / 2, height := 10 },
         { window := 2, x := 3 / 2, y := 0, width := 3 - 3 / 2,
           height := 10 }] := by
  decide

/-- C1 as amended: on a two-window list, Horizontal assigns the first
window (0, 0, ⌊W/2⌋, H) and the second (⌊W/2⌋, 0, ⌊W/2⌋, H); Vertical
assigns (0, 0, W, ⌊H/2⌋) and (0, ⌊H/2⌋, W, ⌊H/2⌋).  Both windows get the
floored half-dimension, so the two widths (resp. heights) sum to
W − W % 2 (resp. H − H % 2): the division remainder is dropped, not
absorbed by the second window. -/
theorem c1_amended_layout (W H w0 w1 : Nat) :
    arrange_windows W H LayoutMode.Horizontal [w0, w1] =
      [{ window := w0, x := 0, y := 0, width := W / 2, height := H },
       { window := w1, x := W / 2, y := 0, width := W / 2, height := H }] ∧
    arrange_windows W H LayoutMode.Vertical [w0, w1] =
      [{ window := w0, x := 0, y := 0, width := W, height := H / 2 },
       { window := w1, x := 0, y := H / 2, width := W, height := H / 2 }] ∧
    W / 2 + W / 2 = W - W % 2 ∧ H / 2 + H / 2 = H - H % 2 := by
  refine ⟨(arrange_windows_two W H w0 w1).1,
    (arrange_windows_two W H w0 w1).2, by omega, by omega⟩

/-- C2, counterexample: duplicate handles are reachable.  Two map
requests for the same window handle 5 from the initial state leave the
tracked list `[5, 5]`, which has a duplicate. -/
theorem c2_counterexample :
    ¬ (processEvents 1920 1080 initState
        [XEvent.MapRequest 5, XEvent.MapRequest 5]).1.windows.Nodup := by
  decide

/-- C2 as amended: every event handler preserves the no-duplicates
invariant provided a map request never arrives for a handle that is
already tracked (the X server re-sending a MapRequest for a tracked
window is the only way to create a duplicate). -/
theorem c2_amended_nodup (W H : Nat) (s : WMState) (e : XEvent)
    (hnd : s.windows.Nodup)
    (hfresh : ∀ w, e = XEvent.MapRequest w → w ∉ s.windows) :
    (step W H s e).1.windows.Nodup := by
  cases e with
  | MapRequest w =>
      have hw : w ∉ s.windows := hfresh w rfl
      have happ : (s.windows ++ [w]).Nodup := by
        simp [List.nodup_append, hnd, hw]
      simp only [step]
      split
      · exact List.Nodup.sublist (List.tail_sublist _) happ
      · simpa using happ
  | KeyPress st keycode =>
      simp only [step]
      split
      · simpa [toggle_layout] using hnd
      · split <;> simpa using hnd
  | DestroyNotify w =>
      simp only [step]
      split
      · exact List.Nodup.sublist (List.eraseIdx_sublist _ _) hnd
      · simpa using hnd
  | Other => simpa [step] using hnd

theorem c2_amended_nodup_witness :
    (step 1920 1080 { layout := LayoutMode.Horizontal, windows := [4, 5] }
      (XEvent.MapRequest 6)).1.windows.Nodup :=
  c2_amended_nodup 1920 1080 _ _ (by decide)
    (by intro w hw; cases hw; decide)

/-- C3: from the initial empty state, after any finite event sequence the
tracked window list has length at most 2; moreover every single event
handler preserves the bound. -/
theorem c3_capacity_invariant :
    (∀ W H : Nat, ∀ es : List XEvent,
        (processEvents W H initState es).1.windows.length ≤ 2) ∧
    (∀ W H : Nat, ∀ s : WMState, ∀ e : XEvent,
        s.windows.length ≤ 2 → (step W H s e).1.windows.length ≤ 2) :=
  ⟨fun W H es =>
      processEvents_windows_length_le W H initState es (by simp [initState]),
   fun W H s e h => step_windows_length_le W H s e h⟩

theorem c3_capacity_invariant_witness :
    (processEvents 1920 1080 initState
        [XEvent.MapRequest 1, XEvent.MapRequest 2,
         XEvent.MapRequest 3]).1.windows.length ≤ 2 ∧
    (step 1920 1080 { layout := LayoutMode.Horizontal, windows := [1, 2] }
        (XEvent.MapRequest 3)).1.windows.length ≤ 2 :=
  ⟨c3_capacity_invariant.1 1920 1080 _,
   c3_capacity_invariant.2 1920 1080 _ _ (by decide)⟩

/-- C4: a map request arriving while exactly [w1, w2] are tracked yields
the tracked list [w2, w3]: the oldest handle is evicted, survivor order
preserved, length exactly 2. -/
theorem c4_eviction (W H : Nat) (s : WMState) (w1 w2 w3 : Nat)
    (h : s.windows = [w1, w2]) :
    (step W H s (XEvent.MapRequest w3)).1.windows = [w2, w3] := by
  simp [step, h]

theorem c4_eviction_witness :
    (step 1920 1080 { layout := LayoutMode.Horizontal, windows := [1, 2] }
        (XEvent.MapRequest 3)).1.windows = [2, 3] :=
  c4_eviction 1920 1080 _ 1 2 3 rfl

/-- C5: with fewer than two tracked windows the layout routine emits no
geometry assignments at all, whatever the mode; in particular a toggle
from such a state issues no configure commands. -/
theorem c5_under_two_no_commands (W H : Nat) (mode : LayoutMode)
    (ws : List Nat) (h : ws.length < 2) :
    arrange_windows W H mode ws = [] ∧
    (∀ s : WMState, s.windows = ws → (toggle_layout W H s).2 = []) := by
  have key : ∀ m : LayoutMode, arrange_windows W H m ws = [] := by
    intro m
    unfold arrange_windows
    rw [if_neg (by omega)]
  exact ⟨key mode, fun s hs => by simp [toggle_layout, hs, key]⟩

theorem c5_under_two_no_commands_witness :
    arrange_windows 1920 1080 LayoutMode.Horizontal [7] = [] ∧
    (∀ s : WMState, s.windows = [7] →
      (toggle_layout 1920 1080 s).2 = []) :=
  c5_under_two_no_commands 1920 1080 LayoutMode.Horizontal [7] (by decide)

/-- C6: every geometry assignment the layout routine produces fits the
screen: x + width ≤ W and y + height ≤ H (all fields are `Nat`, hence
non-negative, and the routine is a total function, so it never fails);
this holds for every mode, every window list, and every W, H including
0. -/
theorem c6_geometry_bounds (W H : Nat) (mode : LayoutMode) (ws : List Nat)
    (c : ConfigureCmd) (hc : c ∈ arrange_windows W H mode ws) :
    c.x + c.width ≤ W ∧ c.y + c.height ≤ H := by
  unfold arrange_windows at hc
  split at hc
  · cases mode <;> simp at hc <;> rcases hc with rfl | rfl <;>
      refine ⟨?_, ?_⟩ <;> simp <;> omega
  · simp at hc

theorem c6_geometry_bounds_witness :
    ({ window := 2, x := 3 / 2, y := 0, width := 3 / 2,
       height := 11 } : ConfigureCmd).x +
      ({ window := 2, x := 3 / 2, y := 0, width := 3 / 2,
         height := 11 } : ConfigureCmd).width ≤ 3 ∧
    ({ window := 2, x := 3 / 2, y := 0, width := 3 / 2,
       height := 11 } : ConfigureCmd).y +
      ({ window := 2, x := 3 / 2, y := 0, width := 3 / 2,
         height := 11 } : ConfigureCmd).height ≤ 11 :=
  c6_geometry_bounds 3 11 LayoutMode.Horizontal [1, 2] _ (by decide)

/-- C7: toggling the layout twice restores the whole state, and the
layout routine on the restored state reproduces exactly the geometries of
the original state. -/
theorem c7_toggle_involution (W H : Nat) (s : WMState) :
    (toggle_layout W H (toggle_layout W H s).1).1 = s ∧
    arrange_windows W H (toggle_layout W H (toggle_layout W H s).1).1.layout
        (toggle_layout W H (toggle_layout W H s).1).1.windows =
      arrange_windows W H s.layout s.windows := by
  obtain ⟨l, ws⟩ := s
  cases l <;> simp [toggle_layout]

/-- C8: a destroy notification for a tracked handle removes (the first
occurrence of) that handle and nothing else: the layout mode is
unchanged, no command is issued, and the loop does not quit. -/
theorem c8_destroy_removes (W H : Nat) (s : WMState) (w : Nat)
    (h : w ∈ s.windows) :
    step W H s (XEvent.DestroyNotify w) =
      ({ s with windows := s.windows.erase w }, [], false) := by
  simp only [step]
  cases hp : position (fun x => x == w) s.windows with
  | none => exact absurd ((position_none_iff w s.windows).mp hp) (by simp [h])
  | some i => simp [position_some_eraseIdx w s.windows i hp]

theorem c8_destroy_removes_witness :
    step 1920 1080 { layout := LayoutMode.Horizontal, windows := [7, 9] }
        (XEvent.DestroyNotify 7) =
      ({ layout := LayoutMode.Horizontal,
         windows := List.erase [7, 9] 7 }, [], false) :=
  c8_destroy_removes 1920 1080
    { layout := LayoutMode.Horizontal, windows := [7, 9] } 7 (by decide)

/-- C9: a destroy notification for an untracked handle is a no-op: state
unchanged, no command issued, no quit, no fault (the step function is
total). -/
theorem c9_destroy_absent_noop (W H : Nat) (s : WMState) (w : Nat)
    (h : w ∉ s.windows) :
    step W H s (XEvent.DestroyNotify w) = (s, [], false) := by
  simp only [step]
  rw [(position_none_iff w s.windows).mpr h]

theorem c9_destroy_absent_noop_witness :
    step 1920 1080 { layout := LayoutMode.Vertical, windows := [7, 9] }
        (XEvent.DestroyNotify 8) =
      ({ layout := LayoutMode.Vertical, windows := [7, 9] }, [], false) :=
  c9_destroy_absent_noop 1920 1080
    { layout := LayoutMode.Vertical, windows := [7, 9] } 8 (by decide)

/-- C10: event processing is deterministic: two runs from equal states on
the same event sequence end in the same state and emit the same command
trace in the same order. -/
theorem c10_deterministic (W H : Nat) (s1 s2 : WMState)
    (es : List XEvent) (h : s1 = s2) :
    processEvents W H s1 es = processEvents W H s2 es := by
  rw [h]

theorem c10_deterministic_witness :
    processEvents 1920 1080 initState
        [XEvent.MapRequest 1, XEvent.MapRequest 2] =
      processEvents 1920 1080 initState
        [XEvent.MapRequest 1, XEvent.MapRequest 2] :=
  c10_deterministic 1920 1080 initState initState
    [XEvent.MapRequest 1, XEvent.MapRequest 2] rfl
